import Mathlib

/-!
Verification model of OpenBSD's `snmpc.c` (src/usr.bin/snmp/snmpc.c):
the subtree walk engine (`snmpc_walk`), the trap value codec
(`snmpc_trap`), and the error-report selection (`snmpc_get` /
`snmpc_printerror`).  OIDs are sequences of non-negative integers
(`List Nat`); machine integers that matter for range checks are `Int`
with explicit bounds; fallible parsing returns `Except`.
-/

/-- Modelled from the spec: OID comparison of `ber_oid_cmp`
(`lib/libutil/ber.c`, an external collaborator of this program, not
under `src/`).  Spec §4.1: component-wise lexicographic order over
variable-length integer sequences, a shorter sequence that is a strict
prefix of a longer one compares as ancestor/less.  Return convention
as consumed by `snmpc_walk`: `1` when `b` is a lexicographic successor
of `a`, `-1` when `b` is a predecessor of `a` (this includes `b` a
strict prefix of `a`), `2` when `b` is a strict descendant of `a`
(`a` a strict prefix of `b`, the spec's `isSubtreeMember`), and `0`
when identical. -/
def ber_oid_cmp : List Nat → List Nat → Int
  | [], [] => 0
  | [], _ :: _ => 2
  | _ :: _, [] => -1
  | x :: xs, y :: ys => if x < y then 1 else if y < x then -1 else ber_oid_cmp xs ys

/-- Walk policy flags, the globals of `snmpc.c` lines 81-87:
`walk_check_increase`, `walk_include_oid`, `walk_fallback_oid`,
`walk_end` (an empty list encodes `walk_end.bo_n == 0`, i.e. no
end bound configured). -/
structure WalkConfig where
  check_increase : Bool
  include_oid : Bool
  fallback_oid : Bool
  wend : List Nat
deriving DecidableEq, Repr

/-- The default values of the walk policy globals in the source. -/
def defaultWalkConfig : WalkConfig := ⟨true, false, true, []⟩

/-- One GETNEXT round-trip reply as consumed by the walk loop,
`snmpc_walk` lines 404-445: a non-zero error-status (`err`), or one
varbind carrying either the end-of-MIB exception marker
(`BER_CLASS_CONTEXT`/`BER_TYPE_EOC`) or an OID plus a value (the value
payload is irrelevant to the control flow modelled here). -/
structure Reply where
  err : Bool
  endOfMib : Bool
  oid : List Nat
deriving DecidableEq, Repr

/-- A successful GETNEXT reply carrying `o`. -/
def mkR (o : List Nat) : Reply := ⟨false, false, o⟩

/-- Outcome of the iteration phase of `snmpc_walk` (the `while (1)`
loop, lines 404-445): the emitted OIDs in order, and how the loop
ended.  `done` is the quiet `break` paths; `notIncreasing` is the
`errx(1, "OID not increasing")` exit; `protoError` is the fatal
non-zero error-status path; `exhausted` marks a finite reply sequence
running out (the real loop would issue another round trip). -/
inductive WalkOutcome
  | done (es : List (List Nat)) (n : Nat)
  | notIncreasing (es : List (List Nat))
  | protoError (es : List (List Nat))
  | exhausted (es : List (List Nat)) (n : Nat)
deriving DecidableEq, Repr

/-- Prepend one emitted OID to an outcome's emission list. -/
def WalkOutcome.push (o : List Nat) : WalkOutcome → WalkOutcome
  | .done es n => .done (o :: es) n
  | .notIncreasing es => .notIncreasing (o :: es)
  | .protoError es => .protoError (o :: es)
  | .exhausted es n => .exhausted (o :: es) n

/-- The iteration phase of `snmpc_walk`, lines 404-445, specialised to
GETNEXT (one varbind per reply).  `loid` is the cursor saved by
`bcopy(&noid, &loid, ...)`; per binding the loop checks, in source
order: the error-status (fatal), the end-of-MIB marker (`break`), the
strict-increase policy (`errx` when `ber_oid_cmp(&loid, &noid) == -1`),
the boundary test (`prev_cmp == 0 || ber_oid_cmp(&oid, &noid) != 2`,
quiet `break`), the optional end bound (`walk_end.bo_n != 0 &&
ber_oid_cmp(&walk_end, &noid) != -1`, quiet `break`), and otherwise
prints the binding, increments `n` and advances the cursor. -/
def walkLoop (root : List Nat) (cfg : WalkConfig) : List Nat → Nat → List Reply → WalkOutcome
  | _, n, [] => .exhausted [] n
  | loid, n, r :: rs =>
    if r.err = true then .protoError []
    else if r.endOfMib = true then .done [] n
    else if cfg.check_increase = true ∧ ber_oid_cmp loid r.oid = -1 then .notIncreasing []
    else if ber_oid_cmp loid r.oid = 0 ∨ ber_oid_cmp root r.oid ≠ 2 then .done [] n
    else if cfg.wend ≠ [] ∧ ber_oid_cmp cfg.wend r.oid ≠ -1 then .done [] n
    else (walkLoop root cfg r.oid (n + 1) rs).push r.oid

/-- A reply to one of the auxiliary plain GETs of `snmpc_walk` (the
include-starting-OID seed, lines 389-403, and the fallback GET, lines
446-460): either a fatal non-zero error-status or one varbind. -/
structure GetReply where
  err : Bool
  oid : List Nat
deriving DecidableEq, Repr

/-- Fatal exits of a walk invocation. -/
inductive WalkFatal
  | protoError
  | notIncreasing
deriving DecidableEq, Repr

/-- Result of one whole `snmpc_walk` invocation. -/
structure WalkRun where
  emitted : List (List Nat)
  n : Nat
  fatal : Option WalkFatal
  fallbackIssued : Bool
  exhausted : Bool
deriving DecidableEq, Repr

/-- The bindings emitted by the optional include-starting-OID seed GET
(lines 389-403). -/
def seedEmit (cfg : WalkConfig) (seed : GetReply) : List (List Nat) :=
  if cfg.include_oid = true then [seed.oid] else []

/-- One whole `snmpc_walk` invocation, lines 357-476: optional seed
GET (emitting its binding unconditionally and counting it), the
iteration loop starting from the cursor `root`, and the fallback GET
on `root` issued exactly when `walk_fallback_oid && n == 0`. -/
def snmpc_walk_full (root : List Nat) (cfg : WalkConfig) (seed fb : GetReply)
    (replies : List Reply) : WalkRun :=
  if cfg.include_oid = true ∧ seed.err = true then ⟨[], 0, some .protoError, false, false⟩
  else
    let n0 : Nat := if cfg.include_oid = true then 1 else 0
    match walkLoop root cfg root n0 replies with
    | .protoError es => ⟨seedEmit cfg seed ++ es, n0 + es.length, some .protoError, false, false⟩
    | .notIncreasing es =>
        ⟨seedEmit cfg seed ++ es, n0 + es.length, some .notIncreasing, false, false⟩
    | .exhausted es n => ⟨seedEmit cfg seed ++ es, n, none, false, true⟩
    | .done es n =>
        if cfg.fallback_oid = true ∧ n = 0 then
          if fb.err = true then ⟨seedEmit cfg seed ++ es, n, some .protoError, true, false⟩
          else ⟨seedEmit cfg seed ++ es ++ [fb.oid], n + 1, none, true, false⟩
        else ⟨seedEmit cfg seed ++ es, n, none, false, false⟩

/-- A single step of a well-behaved agent's reply chain: the new OID is
a lexicographic successor of the cursor (`ber_oid_cmp` returns `1` or
`2`) and a strict descendant of `root`. -/
def stepOkB (root loid o : List Nat) : Bool :=
  (ber_oid_cmp loid o == 1 || ber_oid_cmp loid o == 2) && (ber_oid_cmp root o == 2)

/-- A reply OID chain that is strictly increasing from the cursor and
stays inside the subtree of `root`. -/
def goodChain (root : List Nat) : List Nat → List (List Nat) → Bool
  | _, [] => true
  | cur, o :: os => stepOkB root cur o && goodChain root o os

/-- The last element of a chain, or the starting cursor when empty. -/
def lastD : List (List Nat) → List Nat → List Nat
  | [], d => d
  | o :: os, _ => lastD os o

/-- Prepend a list of emitted OIDs to an outcome's emission list. -/
def pushAll (os : List (List Nat)) (w : WalkOutcome) : WalkOutcome :=
  os.foldr WalkOutcome.push w

/-- The output the walk-termination claim predicts for a reply
sequence: the bindings received before the first reply OID that is not
a strict descendant of `root`. -/
def claimedWalkEmissions (root : List Nat) (replyOids : List (List Nat)) : List (List Nat) :=
  replyOids.takeWhile (fun o => ber_oid_cmp root o == 2)

/-! ## Trap value codec (`snmpc_trap`, lines 479-681) -/

/-- Errors that abort trap assembly: `errx(1, "... Bad value notation ...")`
for a literal that fails its tag's parse rule, and the `usage()` exit
of the `default:` branch for an unrecognised type tag. -/
inductive TrapErr
  | badValue
  | usage
deriving DecidableEq, Repr

deriving instance DecidableEq for Except

/-- The closed set of protocol values a trap varbind can carry
(spec §3 `Value`; the `ber_printf_elements` calls of `snmpc_trap`). -/
inductive SnmpValue
  | ipAddress (bytes : List Nat)
  | counter32 (v : Int)
  | integer (v : Int)
  | octetString (bytes : List Nat)
  | null
  | objectId (oid : List Nat)
  | timeticks (v : Int)
deriving DecidableEq, Repr

/-- The separator/terminator characters accepted after a token for
tags `x` and `d` (lines 587-588 and 656-657): space and tab only. -/
def sepXD (c : Char) : Bool := c == ' ' || c == '\t'

/-- The separator/terminator characters accepted after a token for
tag `b` (lines 542-543): space, tab and comma. -/
def sepB (c : Char) : Bool := c == ' ' || c == '\t' || c == ','

/-- The characters `strtoll` skips as leading whitespace that can
occur in a command-line literal here: space and tab. -/
def wsB (c : Char) : Bool := c == ' ' || c == '\t'

/-- Digit test for the base used by a `strtoll` call (10 or 16). -/
def isDigitB (base : Nat) (c : Char) : Bool :=
  if base = 16 then
    c.isDigit || ('a' ≤ c && c ≤ 'f') || ('A' ≤ c && c ≤ 'F')
  else
    c.isDigit

/-- Numeric value of a digit accepted by `isDigitB`. -/
def digitVal (c : Char) : Nat :=
  if c.isDigit then c.toNat - 48
  else if 'a' ≤ c && c ≤ 'f' then c.toNat - 87
  else c.toNat - 55

/-- The maximal leading digit run of a string: the digit values and
the remaining characters. -/
def takeDigits (base : Nat) : List Char → List Nat × List Char
  | [] => ([], [])
  | c :: cs =>
    if isDigitB base c = true then
      ((takeDigits base cs).1.cons (digitVal c), (takeDigits base cs).2)
    else ([], c :: cs)

/-- The numeric value of a digit-value list read most significant
first. -/
def ofDigits (base : Nat) (ds : List Nat) : Nat :=
  ds.foldl (fun a d => a * base + d) 0

/-- Core of the `strtoll` model: given the original string `s` and its
whitespace-stripped form `t`, parse an optional sign and a digit run.
On success return the value, the rest after the digits, and `true`;
when no digits were consumed return `(0, s, false)` — libc `strtoll`
sets `*endptr` back to the original pointer. -/
def strtollCore (base : Nat) (s t : List Char) : Int × List Char × Bool :=
  if t.head? = some '-' then
    match takeDigits base t.tail with
    | ([], _) => (0, s, false)
    | (d :: ds, rest) => (-(ofDigits base (d :: ds) : Int), rest, true)
  else if t.head? = some '+' then
    match takeDigits base t.tail with
    | ([], _) => (0, s, false)
    | (d :: ds, rest) => ((ofDigits base (d :: ds) : Int), rest, true)
  else
    match takeDigits base t with
    | ([], _) => (0, s, false)
    | (d :: ds, rest) => ((ofDigits base (d :: ds) : Int), rest, true)

/-- Modelled from the spec: libc `strtoll` (external to `src/`),
restricted to what a trap literal exercises per spec §4.3 — skip
leading blanks, parse an optional sign and a maximal digit run of the
given base, and report via `*endptr` whether any digits were
consumed. -/
def strtoll (base : Nat) (s : List Char) : Int × List Char × Bool :=
  strtollCore base s (s.dropWhile wsB)

/-- First-character separator check done on `endstr[0]` after every
`strtoll` call in the `b`/`d`/`x` loops; the terminating NUL (an empty
rest) is always accepted. -/
def headOk (sep : Char → Bool) : List Char → Bool
  | [] => true
  | c :: _ => sep c

/-- The byte-list tokenizer loop shared by tags `x` (base 16) and `d`
(base 10), lines 579-601 and 648-670: repeat `strtoll`; reject when
the character after the token is not a separator or NUL; skip empty
tokens by advancing one character; reject a token outside `[0, 255]`;
otherwise append the byte and continue past the separator.  `fuel`
bounds the recursion; every call site passes enough fuel for the loop,
which consumes at least one character per iteration. -/
def xdGo (base : Nat) : Nat → List Char → Except TrapErr (List Nat)
  | 0, _ => .error .badValue
  | fuel + 1, s =>
    match strtoll base s with
    | (v, rest, conv) =>
      if headOk sepXD rest = false then .error .badValue
      else if conv = false then
        match s with
        | [] => .ok []
        | _ :: s2 => xdGo base fuel s2
      else if v < 0 ∨ 255 < v then .error .badValue
      else
        match rest with
        | [] => .ok [v.toNat]
        | _ :: r2 =>
          match xdGo base fuel r2 with
          | .error e => .error e
          | .ok bs => .ok (v.toNat :: bs)

/-- Entry point of the `x`/`d` token loop on a whole literal. -/
def xdLoop (base : Nat) (s : List Char) : Except TrapErr (List Nat) :=
  xdGo base (s.length + 1) s

/-- The bit accumulation of tag `b`, lines 553-560: grow the byte
buffer (zero filled, `recallocarray`) to cover byte `ix / 8` when
needed, then OR `0x80 >> (ix % 8)` into that byte. -/
def setBit (str : List Nat) (ix : Nat) : List Nat :=
  let byte := ix / 8
  let str2 := if str.length ≤ byte then str ++ List.replicate (byte + 1 - str.length) 0 else str
  str2.set byte (str2.getD byte 0 ||| (128 >>> (ix % 8)))

/-- Reading of a built byte string as a BITS value: bit `i` is the bit
at position `i` counting from the most significant bit of byte
`i / 8` (RFC 3416 §2.5, as the spec words the `b` encoding). -/
def hasBit (bs : List Nat) (i : Nat) : Bool :=
  (bs.getD (i / 8) 0).testBit (7 - i % 8)

/-- The tag `b` tokenizer loop, lines 537-562: like the `x`/`d` loop
but with comma also a separator, tokens in base 10, any non-negative
token accepted as a bit index, and bits accumulated into `str`. -/
def bGo : Nat → List Char → List Nat → Except TrapErr (List Nat)
  | 0, _, _ => .error .badValue
  | fuel + 1, s, str =>
    match strtoll 10 s with
    | (v, rest, conv) =>
      if headOk sepB rest = false then .error .badValue
      else if conv = false then
        match s with
        | [] => .ok str
        | _ :: s2 => bGo fuel s2 str
      else if v < 0 then .error .badValue
      else
        match rest with
        | [] => .ok (setBit str v.toNat)
        | _ :: r2 => bGo fuel r2 (setBit str v.toNat)

/-- Entry point of the `b` token loop on a whole literal. -/
def bLoop (s : List Char) : Except TrapErr (List Nat) :=
  bGo (s.length + 1) s []

/-- A signed decimal literal: an optional sign followed by at least
one decimal digit, with no other characters. -/
def parseSignedDec (s : List Char) : Option Int :=
  match s with
  | '-' :: u =>
    if u ≠ [] ∧ u.all Char.isDigit then some (-(ofDigits 10 (u.map digitVal) : Int)) else none
  | '+' :: u =>
    if u ≠ [] ∧ u.all Char.isDigit then some ((ofDigits 10 (u.map digitVal) : Int)) else none
  | u =>
    if u ≠ [] ∧ u.all Char.isDigit then some ((ofDigits 10 (u.map digitVal) : Int)) else none

/-- Modelled from the spec: libc `strtonum` (external to `src/`), per
spec §4.3 — the whole literal must be a signed decimal and its value
must lie in `[lo, hi]`, otherwise the call reports an error. -/
def strtonum (s : List Char) (lo hi : Int) : Except Unit Int :=
  match parseSignedDec s with
  | none => .error ()
  | some v => if v < lo ∨ hi < v then .error () else .ok v

/-- Split a character list on `.` separators. -/
def splitDots : List Char → List (List Char)
  | [] => [[]]
  | c :: cs =>
    if c = '.' then [] :: splitDots cs
    else
      match splitDots cs with
      | [] => [[c]]
      | g :: gs => (c :: g) :: gs

/-- A dot-separated group that is a plain decimal number. -/
def decGroup (g : List Char) : Option Nat :=
  if g ≠ [] ∧ g.all Char.isDigit then some (ofDigits 10 (g.map digitVal)) else none

/-- Modelled from the spec: libc `inet_pton(AF_INET, ...)` (external
to `src/`), per spec §4.3 — the literal must parse as a valid dotted
IPv4 address: exactly four groups of one to three decimal digits, each
at most 255. -/
def parseIPv4 (s : List Char) : Option (List Nat) :=
  match (splitDots s).mapM decGroup with
  | some [a, b, c, d] =>
    if (splitDots s).all (fun g => g.length ≤ 3) ∧ a ≤ 255 ∧ b ≤ 255 ∧ c ≤ 255 ∧ d ≤ 255 then
      some [a, b, c, d]
    else none
  | _ => none

/-- Modelled from the spec: the numeric branch of `smi_string2oid`
(the MIB-resolution collaborator of spec §6, external to `src/`) — a
dotted sequence of decimal component numbers resolves to the
corresponding OID. -/
def parseOidText (s : List Char) : Option (List Nat) :=
  (splitDots s).mapM decGroup

/-- The per-tag value codec of `snmpc_trap`, the `switch (argv[i + 1][0])`
of lines 524-673: one (type tag, literal) pair to a protocol value or
a fatal abort.  An unrecognised tag falls to `usage()`. -/
def snmpc_trap_value (tag : Char) (lit : List Char) : Except TrapErr SnmpValue :=
  match tag with
  | 'a' =>
    match parseIPv4 lit with
    | some bs => .ok (.ipAddress bs)
    | none => .error .badValue
  | 'b' =>
    match bLoop lit with
    | .error e => .error e
    | .ok bs => .ok (.octetString bs)
  | 'c' =>
    match strtonum lit (-2147483648) 2147483647 with
    | .error _ => .error .badValue
    | .ok v => .ok (.counter32 v)
  | 'd' =>
    match xdLoop 10 lit with
    | .error e => .error e
    | .ok bs => .ok (.octetString bs)
  | 'u' =>
    match strtonum lit (-9223372036854775808) 9223372036854775807 with
    | .error _ => .error .badValue
    | .ok v => .ok (.integer v)
  | 'i' =>
    match strtonum lit (-9223372036854775808) 9223372036854775807 with
    | .error _ => .error .badValue
    | .ok v => .ok (.integer v)
  | 'n' => .ok .null
  | 'o' =>
    match parseOidText lit with
    | some o => .ok (.objectId o)
    | none => .error .badValue
  | 's' => .ok (.octetString (lit.map Char.toNat))
  | 'x' =>
    match xdLoop 16 lit with
    | .error e => .error e
    | .ok bs => .ok (.octetString bs)
  | 't' =>
    match strtonum lit (-9223372036854775808) 9223372036854775807 with
    | .error _ => .error .badValue
    | .ok v => .ok (.timeticks v)
  | _ => .error .usage

/-- The varbind-assembly loop of `snmpc_trap`, lines 521-676: process
the (OID, tag, literal) triples in input order; the first codec
failure aborts the whole command (`errx`/`usage` terminate the
process), so `snmp_trap` at line 678 is reached only when every triple
parsed. -/
def snmpc_trap_build :
    List (List Nat × Char × List Char) → Except TrapErr (List (List Nat × SnmpValue))
  | [] => .ok []
  | (o, tag, lit) :: ts =>
    match snmpc_trap_value tag lit with
    | .error e => .error e
    | .ok v =>
      match snmpc_trap_build ts with
      | .error e => .error e
      | .ok vs => .ok ((o, v) :: vs)

/-- Whether the notification is handed to the transport (`snmp_trap`,
line 678): only when the whole varbind list was assembled. -/
def snmpc_trap_sent (ts : List (List Nat × Char × List Char)) : Bool :=
  match snmpc_trap_build ts with
  | .ok _ => true
  | .error _ => false

/-- Protocol version constants of `snmp.h`. -/
def SNMP_V1 : Nat := 0

/-- Protocol version constant for SNMPv2c. -/
def SNMP_V2C : Nat := 1

/-- How the prelude of `snmpc_trap` exits before any network work. -/
inductive TrapPre
  | usageExit
  | v1Exit
  | proceedConnect
deriving DecidableEq, Repr

/-- The prelude of `snmpc_trap`, lines 493-498: the argument-count
check (`argc < 3 || argc % 3 != 0` exits via `usage()`) runs first,
then the version check (`version == SNMP_V1` exits via
`errx(1, "trap is not supported for snmp v1")`); only after both does
the function connect to the agent and build the PDU. -/
def snmpc_trap_precheck (version : Nat) (argc : Nat) : TrapPre :=
  if argc < 3 ∨ argc % 3 ≠ 0 then .usageExit
  else if version = SNMP_V1 then .v1Exit
  else .proceedConnect

/-! ## Error-report selection (`snmpc_get`, lines 342-346) -/

/-- What the error message of `snmpc_printerror` names. -/
inductive ErrReport
  | named (s : String)
  | generic
  | outOfBounds
deriving DecidableEq, Repr

/-- The argument `snmpc_get` hands to `snmpc_printerror` on a non-zero
error-status, line 346: `argv[errorindex - 1]`, where `argv` points at
the first requested OID and the agent argument sits at `argv[-1]`.
Index 0 therefore names the agent argument; an index beyond the OID
count reads past the request list (`argv`'s NULL terminator or out of
bounds), modelled as `outOfBounds`. -/
def snmpc_get_report (agent : String) (oids : List String) (errorindex : Nat) : ErrReport :=
  match (agent :: oids).get? errorindex with
  | some s => .named s
  | none => .outOfBounds

/-- The error-report selection as the specification words it (spec
§4.5), for comparison with `snmpc_get_report`: a 1-based in-range
error-index selects the requested OID; index 0 or an out-of-range
index is reported generically. -/
def reportPerSpec (oids : List String) (errorindex : Nat) : ErrReport :=
  if 1 ≤ errorindex ∧ errorindex ≤ oids.length then .named (oids.getD (errorindex - 1) (""))
  else .generic

/-! ## Walk engine lemmas -/

theorem pushAll_done (os es : List (List Nat)) (n : Nat) :
    pushAll os (.done es n) = .done (os ++ es) n := by
  induction os with
  | nil => rfl
  | cons o os ih => simp [pushAll, List.foldr] at ih ⊢; rw [ih]; rfl

theorem pushAll_notIncreasing (os es : List (List Nat)) :
    pushAll os (.notIncreasing es) = .notIncreasing (os ++ es) := by
  induction os with
  | nil => rfl
  | cons o os ih => simp [pushAll, List.foldr] at ih ⊢; rw [ih]; rfl

/-- One loop iteration on a successful reply that passes every check
emits the reply OID and continues with an advanced cursor and count. -/
theorem walkLoop_cons_emit (root : List Nat) (cfg : WalkConfig) (cur o : List Nat) (n : Nat)
    (rs : List Reply)
    (hinc : ¬(cfg.check_increase = true ∧ ber_oid_cmp cur o = -1))
    (hbnd : ¬(ber_oid_cmp cur o = 0 ∨ ber_oid_cmp root o ≠ 2))
    (hend : ¬(cfg.wend ≠ [] ∧ ber_oid_cmp cfg.wend o ≠ -1)) :
    walkLoop root cfg cur n (mkR o :: rs) = (walkLoop root cfg o (n + 1) rs).push o := by
  simp only [walkLoop, mkR]
  rw [if_neg (by simp : ¬((false : Bool) = true)), if_neg (by simp : ¬((false : Bool) = true)),
    if_neg hinc, if_neg hbnd, if_neg hend]

/-- Unrolling the iteration loop over a strictly increasing in-subtree
reply chain: every chain binding is emitted and the loop continues
from the last chain OID with the count advanced. -/
theorem walkLoop_chain (root : List Nat) (cfg : WalkConfig) (hw : cfg.wend = []) :
    ∀ (chain : List (List Nat)) (cur : List Nat) (n : Nat) (rest : List Reply),
    goodChain root cur chain = true →
    walkLoop root cfg cur n (chain.map mkR ++ rest)
      = pushAll chain (walkLoop root cfg (lastD chain cur) (n + chain.length) rest) := by
  intro chain
  induction chain with
  | nil => intro cur n rest _; simp [pushAll, lastD]
  | cons o os ih =>
    intro cur n rest h
    simp only [goodChain, Bool.and_eq_true] at h
    obtain ⟨h1, h2⟩ := h
    simp only [stepOkB, Bool.and_eq_true, Bool.or_eq_true, beq_iff_eq] at h1
    obtain ⟨hc1, hc2⟩ := h1
    have hinc : ¬(cfg.check_increase = true ∧ ber_oid_cmp cur o = -1) := by
      rintro ⟨-, hcm⟩; rcases hc1 with h' | h' <;> omega
    have hbnd : ¬(ber_oid_cmp cur o = 0 ∨ ber_oid_cmp root o ≠ 2) := by
      rintro (h' | h')
      · rcases hc1 with h'' | h'' <;> omega
      · exact h' hc2
    have hend : ¬(cfg.wend ≠ [] ∧ ber_oid_cmp cfg.wend o ≠ -1) := by
      rintro ⟨h', -⟩; exact h' hw
    simp only [List.map_cons, List.cons_append]
    rw [walkLoop_cons_emit root cfg cur o n _ hinc hbnd hend, ih o (n + 1) rest h2]
    simp only [lastD, pushAll, List.foldr, List.length_cons]
    have harith : n + 1 + os.length = n + (os.length + 1) := by omega
    rw [harith]

/-- The final count of a completed iteration loop is the starting
count plus the number of emitted bindings. -/
theorem walkLoop_done_count (root : List Nat) (cfg : WalkConfig) :
    ∀ (rs : List Reply) (cur : List Nat) (n0 : Nat) (es : List (List Nat)) (n : Nat),
    walkLoop root cfg cur n0 rs = .done es n → n = n0 + es.length := by
  intro rs
  induction rs with
  | nil => intro cur n0 es n h; simp [walkLoop] at h
  | cons r rs ih =>
    intro cur n0 es n h
    simp only [walkLoop] at h
    split at h
    · exact absurd h (by simp)
    · split at h
      · obtain ⟨he, hn⟩ := WalkOutcome.done.inj h; simp [← he, ← hn]
      · split at h
        · exact absurd h (by simp)
        · split at h
          · obtain ⟨he, hn⟩ := WalkOutcome.done.inj h; simp [← he, ← hn]
          · split at h
            · obtain ⟨he, hn⟩ := WalkOutcome.done.inj h; simp [← he, ← hn]
            · cases hw : walkLoop root cfg r.oid (n0 + 1) rs with
              | done es' n' =>
                rw [hw] at h
                simp only [WalkOutcome.push] at h
                obtain ⟨he, hn⟩ := WalkOutcome.done.inj h
                have := ih r.oid (n0 + 1) es' n' hw
                simp [← he, ← hn, this]
                omega
              | notIncreasing es' => rw [hw] at h; simp [WalkOutcome.push] at h
              | protoError es' => rw [hw] at h; simp [WalkOutcome.push] at h
              | exhausted es' n' => rw [hw] at h; simp [WalkOutcome.push] at h

/-! ## Claim C1: walk termination and emissions -/

/-- C1 (counterexample): taken over *every* finite reply sequence the
claim fails.  When a reply repeats the previous cursor OID — still a
strict descendant of root and received before the first out-of-subtree
OID — the walk stops quietly at the repeat (`prev_cmp == 0`, line 432)
and emits only one binding, while the claim demands both bindings
received before the out-of-subtree OID. -/
theorem c1_walk_counterexample :
    (snmpc_walk_full [1, 3, 6, 1, 2, 1, 1] defaultWalkConfig ⟨false, []⟩ ⟨false, []⟩
      [mkR [1, 3, 6, 1, 2, 1, 1, 1], mkR [1, 3, 6, 1, 2, 1, 1, 1],
        mkR [1, 3, 6, 1, 2, 1, 2, 1]]).emitted
      = [[1, 3, 6, 1, 2, 1, 1, 1]]
    ∧ claimedWalkEmissions [1, 3, 6, 1, 2, 1, 1]
        [[1, 3, 6, 1, 2, 1, 1, 1], [1, 3, 6, 1, 2, 1, 1, 1], [1, 3, 6, 1, 2, 1, 2, 1]]
      = [[1, 3, 6, 1, 2, 1, 1, 1], [1, 3, 6, 1, 2, 1, 1, 1]]
    ∧ (snmpc_walk_full [1, 3, 6, 1, 2, 1, 1] defaultWalkConfig ⟨false, []⟩ ⟨false, []⟩
      [mkR [1, 3, 6, 1, 2, 1, 1, 1], mkR [1, 3, 6, 1, 2, 1, 1, 1],
        mkR [1, 3, 6, 1, 2, 1, 2, 1]]).emitted
      ≠ claimedWalkEmissions [1, 3, 6, 1, 2, 1, 1]
        [[1, 3, 6, 1, 2, 1, 1, 1], [1, 3, 6, 1, 2, 1, 1, 1], [1, 3, 6, 1, 2, 1, 2, 1]] := by
  decide

/-- C1 (amended): under the default walk policy (require-increasing
on, include-starting-OID off, no end bound), for a finite GETNEXT
reply sequence whose bindings before the first out-of-subtree OID form
a nonempty strictly increasing chain of strict descendants of `root`,
and whose first out-of-subtree OID is a lexicographic successor of the
last cursor, the walk terminates and emits exactly those in-subtree
bindings in the order received, with a match count equal to their
number; root itself is excluded and the later replies are never
consumed. -/
theorem c1_walk_emits_chain (root : List Nat) (chain : List (List Nat)) (out : List Nat)
    (rest : List Reply) (seed fb : GetReply)
    (hne : chain ≠ [])
    (hchain : goodChain root root chain = true)
    (hout1 : ber_oid_cmp (lastD chain root) out = 1)
    (hout2 : ber_oid_cmp root out ≠ 2) :
    snmpc_walk_full root defaultWalkConfig seed fb (chain.map mkR ++ mkR out :: rest)
      = ⟨chain, chain.length, none, false, false⟩ := by
  have hloop : walkLoop root defaultWalkConfig root 0 (chain.map mkR ++ mkR out :: rest)
      = .done chain chain.length := by
    rw [walkLoop_chain root defaultWalkConfig rfl chain root 0 (mkR out :: rest) hchain]
    have hstop : walkLoop root defaultWalkConfig (lastD chain root) (0 + chain.length)
        (mkR out :: rest) = .done [] chain.length := by
      simp only [walkLoop, mkR]
      rw [if_neg (by simp : ¬((false : Bool) = true)),
        if_neg (by simp : ¬((false : Bool) = true)),
        if_neg (by rintro ⟨-, h⟩; omega),
        if_pos (Or.inr hout2)]
      simp
    rw [hstop, pushAll_done]
    simp
  have hinc0 : defaultWalkConfig.include_oid = false := rfl
  have hlen : ¬(defaultWalkConfig.fallback_oid = true ∧ chain.length = 0) := by
    rintro ⟨-, h⟩; exact hne (List.length_eq_zero.mp h)
  simp [snmpc_walk_full, hinc0, hloop, seedEmit, hlen]
  exact fun _ h => absurd h hne

/-- C1 (witness): the end-to-end scenario of the spec — walking root
`1.3.6.1.2.1.1` against replies `1.3.6.1.2.1.1.1`, `1.3.6.1.2.1.1.2`,
then the out-of-subtree `1.3.6.1.2.1.2.1` emits exactly two bindings
with a match count of 2. -/
theorem c1_walk_emits_chain_witness :
    (goodChain [1, 3, 6, 1, 2, 1, 1] [1, 3, 6, 1, 2, 1, 1]
      [[1, 3, 6, 1, 2, 1, 1, 1], [1, 3, 6, 1, 2, 1, 1, 2]] = true)
    ∧ snmpc_walk_full [1, 3, 6, 1, 2, 1, 1] defaultWalkConfig ⟨false, []⟩ ⟨false, []⟩
        [mkR [1, 3, 6, 1, 2, 1, 1, 1], mkR [1, 3, 6, 1, 2, 1, 1, 2],
          mkR [1, 3, 6, 1, 2, 1, 2, 1]]
      = ⟨[[1, 3, 6, 1, 2, 1, 1, 1], [1, 3, 6, 1, 2, 1, 1, 2]], 2, none, false, false⟩ :=
  ⟨by decide, by
    have h := c1_walk_emits_chain [1, 3, 6, 1, 2, 1, 1]
      [[1, 3, 6, 1, 2, 1, 1, 1], [1, 3, 6, 1, 2, 1, 1, 2]] [1, 3, 6, 1, 2, 1, 2, 1] []
      ⟨false, []⟩ ⟨false, []⟩ (by decide) (by decide) (by decide) (by decide)
    exact h⟩

/-! ## Claim C2: the strict-increase check -/

/-- C2 (counterexample): with the require-increasing policy on (the
default), a reply OID *equal* to the cursor is not fatal: the walk
takes the quiet boundary `break` of line 432 (`prev_cmp == 0`) before
any error, ends cleanly with no "OID not increasing" condition, and
the run reports no fatal outcome — refuting the claim that the equal
case is fatal. -/
theorem c2_increase_counterexample :
    snmpc_walk_full [1, 3, 6] defaultWalkConfig ⟨false, []⟩ ⟨false, []⟩
      [mkR [1, 3, 6, 1], mkR [1, 3, 6, 1]]
      = ⟨[[1, 3, 6, 1]], 1, none, false, false⟩
    ∧ (snmpc_walk_full [1, 3, 6] defaultWalkConfig ⟨false, []⟩ ⟨false, []⟩
      [mkR [1, 3, 6, 1], mkR [1, 3, 6, 1]]).fatal = none := by
  decide

/-- C2 (amended): with the require-increasing policy on, a reply OID
lexicographically *smaller* than the cursor (`ber_oid_cmp == -1`) is
fatal with the "OID not increasing" condition and no further bindings
are emitted; a reply OID *equal* to the cursor ends the walk quietly —
no error, no further bindings (the source distinguishes the two,
spec §9). -/
theorem c2_increase_check (root : List Nat) (chain : List (List Nat)) (bad : List Nat)
    (rest : List Reply) (seed fb : GetReply)
    (hchain : goodChain root root chain = true) :
    (ber_oid_cmp (lastD chain root) bad = -1 →
      snmpc_walk_full root defaultWalkConfig seed fb (chain.map mkR ++ mkR bad :: rest)
        = ⟨chain, chain.length, some .notIncreasing, false, false⟩)
    ∧ (chain ≠ [] → ber_oid_cmp (lastD chain root) bad = 0 →
      snmpc_walk_full root defaultWalkConfig seed fb (chain.map mkR ++ mkR bad :: rest)
        = ⟨chain, chain.length, none, false, false⟩) := by
  constructor
  · intro hbad
    have hloop : walkLoop root defaultWalkConfig root 0 (chain.map mkR ++ mkR bad :: rest)
        = .notIncreasing chain := by
      rw [walkLoop_chain root defaultWalkConfig rfl chain root 0 (mkR bad :: rest) hchain]
      have hstep : walkLoop root defaultWalkConfig (lastD chain root) (0 + chain.length)
          (mkR bad :: rest) = .notIncreasing [] := by
        simp only [walkLoop, mkR]
        rw [if_neg (by simp : ¬((false : Bool) = true)),
          if_neg (by simp : ¬((false : Bool) = true)),
          if_pos ⟨rfl, hbad⟩]
      rw [hstep, pushAll_notIncreasing]
      simp
    have hinc0 : defaultWalkConfig.include_oid = false := rfl
    simp [snmpc_walk_full, hinc0, hloop, seedEmit]
  · intro hne hbad
    have hloop : walkLoop root defaultWalkConfig root 0 (chain.map mkR ++ mkR bad :: rest)
        = .done chain chain.length := by
      rw [walkLoop_chain root defaultWalkConfig rfl chain root 0 (mkR bad :: rest) hchain]
      have hstep : walkLoop root defaultWalkConfig (lastD chain root) (0 + chain.length)
          (mkR bad :: rest) = .done [] chain.length := by
        simp only [walkLoop, mkR]
        rw [if_neg (by simp : ¬((false : Bool) = true)),
          if_neg (by simp : ¬((false : Bool) = true)),
          if_neg (by rintro ⟨-, h⟩; omega),
          if_pos (Or.inl hbad)]
        simp
      rw [hstep, pushAll_done]
      simp
    have hinc0 : defaultWalkConfig.include_oid = false := rfl
    have hlen : ¬(defaultWalkConfig.fallback_oid = true ∧ chain.length = 0) := by
      rintro ⟨-, h⟩; exact hne (List.length_eq_zero.mp h)
    simp [snmpc_walk_full, hinc0, hloop, seedEmit, hlen]
    exact fun _ h => absurd h hne

/-- C2 (witness): after emitting `1.3.6.1`, the strictly smaller reply
`1.3.6.0` is fatal with the "OID not increasing" condition and nothing
further is emitted. -/
theorem c2_increase_check_witness :
    (goodChain [1, 3, 6] [1, 3, 6] [[1, 3, 6, 1]] = true)
    ∧ ber_oid_cmp [1, 3, 6, 1] [1, 3, 6, 0] = -1
    ∧ snmpc_walk_full [1, 3, 6] defaultWalkConfig ⟨false, []⟩ ⟨false, []⟩
        [mkR [1, 3, 6, 1], mkR [1, 3, 6, 0]]
      = ⟨[[1, 3, 6, 1]], 1, some .notIncreasing, false, false⟩ :=
  ⟨by decide, by decide, by
    have h := (c2_increase_check [1, 3, 6] [[1, 3, 6, 1]] [1, 3, 6, 0] [] ⟨false, []⟩
      ⟨false, []⟩ (by decide)).1 (by decide)
    exact h⟩

/-! ## Claim C6: the empty-walk fallback GET -/

/-- C6: when the iteration loop of a walk completes quietly, the
fallback GET on `root` (lines 446-460) is issued exactly when the
fallback-on-empty policy is enabled and the running count `n` — which
includes any binding emitted by the include-starting-OID seed — is
zero; when it is issued, the whole run emits at most one binding (one
on success, none when the GET itself reports an error-status); and
when any binding was emitted during iteration or by the seed
(`0 < n`), no fallback GET is issued. -/
theorem c6_fallback_policy (root : List Nat) (cfg : WalkConfig) (seed fb : GetReply)
    (replies : List Reply) (es : List (List Nat)) (n : Nat)
    (hseed : cfg.include_oid = true → seed.err = false)
    (hdone : walkLoop root cfg root (if cfg.include_oid = true then 1 else 0) replies
      = .done es n) :
    ((snmpc_walk_full root cfg seed fb replies).fallbackIssued = true
      ↔ (cfg.fallback_oid = true ∧ n = 0))
    ∧ (cfg.fallback_oid = true → n = 0 →
        (snmpc_walk_full root cfg seed fb replies).emitted
          = (if fb.err = true then [] else [fb.oid])
        ∧ (snmpc_walk_full root cfg seed fb replies).emitted.length ≤ 1)
    ∧ (0 < n → (snmpc_walk_full root cfg seed fb replies).fallbackIssued = false) := by
  have hcount := walkLoop_done_count root cfg replies root
    (if cfg.include_oid = true then 1 else 0) es n hdone
  have hnoerr : ¬(cfg.include_oid = true ∧ seed.err = true) := by
    rintro ⟨hi, he⟩
    rw [hseed hi] at he
    exact absurd he (by simp)
  have hrun : snmpc_walk_full root cfg seed fb replies
      = if cfg.fallback_oid = true ∧ n = 0 then
          if fb.err = true then ⟨seedEmit cfg seed ++ es, n, some .protoError, true, false⟩
          else ⟨seedEmit cfg seed ++ es ++ [fb.oid], n + 1, none, true, false⟩
        else ⟨seedEmit cfg seed ++ es, n, none, false, false⟩ := by
    simp only [snmpc_walk_full, if_neg hnoerr, hdone]
  refine ⟨?_, ?_, ?_⟩
  · rw [hrun]
    by_cases hf : cfg.fallback_oid = true ∧ n = 0
    · rw [if_pos hf]
      by_cases hfe : fb.err = true
      · simp [hfe, hf]
      · simp only [Bool.not_eq_true] at hfe
        simp [hfe, hf]
    · rw [if_neg hf]
      simp [hf]
  · intro hfb hn0
    have hes : es = [] ∧ cfg.include_oid = false := by
      by_cases hi : cfg.include_oid = true
      · rw [if_pos hi] at hcount; omega
      · simp only [Bool.not_eq_true] at hi
        rw [if_neg (by simp [hi])] at hcount
        constructor
        · have : es.length = 0 := by omega
          exact List.length_eq_zero.mp this
        · exact hi
    obtain ⟨hes1, hes2⟩ := hes
    rw [hrun, if_pos ⟨hfb, hn0⟩]
    by_cases hfe : fb.err = true
    · simp [hfe, seedEmit, hes1, hes2]
    · simp only [Bool.not_eq_true] at hfe
      simp [hfe, seedEmit, hes1, hes2]
  · intro hn
    rw [hrun]
    rw [if_neg (by rintro ⟨-, h⟩; omega)]

/-- C6 (witness): a walk whose first reply is already out of the
subtree emits nothing during iteration; with the default policy the
fallback GET on root is issued and its single binding is emitted. -/
theorem c6_fallback_policy_witness :
    (walkLoop [1, 3] defaultWalkConfig [1, 3]
      (if defaultWalkConfig.include_oid = true then 1 else 0) [mkR [2]] = .done [] 0)
    ∧ (snmpc_walk_full [1, 3] defaultWalkConfig ⟨false, []⟩ ⟨false, [1, 3, 0]⟩
        [mkR [2]]).fallbackIssued = true
    ∧ (snmpc_walk_full [1, 3] defaultWalkConfig ⟨false, []⟩ ⟨false, [1, 3, 0]⟩
        [mkR [2]]).emitted = [[1, 3, 0]] :=
  ⟨by decide, by
    have h := c6_fallback_policy [1, 3] defaultWalkConfig ⟨false, []⟩ ⟨false, [1, 3, 0]⟩
      [mkR [2]] [] 0 (by decide) (by decide)
    exact h.1.mpr ⟨rfl, rfl⟩, by
    have h := c6_fallback_policy [1, 3] defaultWalkConfig ⟨false, []⟩ ⟨false, [1, 3, 0]⟩
      [mkR [2]] [] 0 (by decide) (by decide)
    have h2 := (h.2.1 rfl rfl).1
    simpa using h2⟩

/-! ## Claim C3: the hex (`x`) codec -/

/-- C3 (counterexample): the tag `x` loop accepts only space, tab or
NUL after a token (lines 656-657) — a comma is rejected — so the
claim's literal `"de ad, be,ef"` does not parse to the 4-byte
OctetString; it fails with the bad-value-notation error. -/
theorem c3_hex_counterexample :
    snmpc_trap_value 'x' (("de ad, be,ef").toList) = .error .badValue
    ∧ snmpc_trap_value 'x' (("de ad, be,ef").toList)
      ≠ .ok (.octetString [222, 173, 190, 239]) := by
  decide

/-- C3 (amended): the tag `x` codec accepts space- and tab-separated
hexadecimal byte tokens — `"de ad be ef"` and `"de\tad"` parse to the
expected OctetStrings — while a comma-separated literal such as
`"de ad, be,ef"` and an invalid token such as `"zz"` fail with the
bad-value-notation error. -/
theorem c3_hex_codec :
    snmpc_trap_value 'x' (("de ad be ef").toList) = .ok (.octetString [222, 173, 190, 239])
    ∧ snmpc_trap_value 'x' (("de\tad").toList) = .ok (.octetString [222, 173])
    ∧ snmpc_trap_value 'x' (("zz").toList) = .error .badValue
    ∧ snmpc_trap_value 'x' (("de ad, be,ef").toList) = .error .badValue := by
  decide

/-! ## Claim C9: trap refuses SNMPv1 -/

/-- C9 (counterexample): a trap invocation with SNMPv1 and a malformed
argument count (here 4, not a multiple of 3) exits via `usage()` at
line 494, before the version check of line 495 — so the exit is not
the "trap is not supported for snmp v1" error the claim promises for
every v1 invocation. -/
theorem c9_trap_v1_counterexample :
    snmpc_trap_precheck SNMP_V1 4 = .usageExit
    ∧ snmpc_trap_precheck SNMP_V1 4 ≠ .v1Exit := by
  decide

/-- C9 (amended): with SNMPv1 selected, the trap command never reaches
the connect/PDU-build phase; when the argument count is well formed
(at least 3 and a multiple of 3) the exit is the
"trap is not supported for snmp v1" error, and otherwise it is the
usage error, still before any network work. -/
theorem c9_trap_v1_rejected (argc : Nat) :
    snmpc_trap_precheck SNMP_V1 argc ≠ .proceedConnect
    ∧ (3 ≤ argc → argc % 3 = 0 → snmpc_trap_precheck SNMP_V1 argc = .v1Exit) := by
  unfold snmpc_trap_precheck
  constructor
  · split_ifs with h1 h2
    · simp
    · simp
    · exact absurd rfl h2
  · intro ha hm
    rw [if_neg (by omega), if_pos rfl]

/-- C9 (witness): a well-formed v1 trap invocation with six arguments
exits with the v1 error before connecting. -/
theorem c9_trap_v1_rejected_witness :
    ((3 : Nat) ≤ 6 ∧ 6 % 3 = 0)
    ∧ snmpc_trap_precheck SNMP_V1 6 ≠ .proceedConnect
    ∧ snmpc_trap_precheck SNMP_V1 6 = .v1Exit :=
  ⟨by decide, (c9_trap_v1_rejected 6).1, (c9_trap_v1_rejected 6).2 (by decide) (by decide)⟩

/-! ## Claim C7: trap assembly is atomic -/

/-- C7: if any (OID, tag, literal) triple of a trap invocation fails
its tag's parse rule, the whole command aborts before the notification
is handed to the transport — `snmp_trap` (line 678) is never reached,
so no TRAP PDU with a truncated varbind list is sent. -/
theorem c7_trap_atomic (ts : List (List Nat × Char × List Char)) (o : List Nat) (tag : Char)
    (lit : List Char) (e : TrapErr)
    (hmem : (o, tag, lit) ∈ ts) (hfail : snmpc_trap_value tag lit = .error e) :
    snmpc_trap_sent ts = false := by
  induction ts with
  | nil => cases hmem
  | cons t ts ih =>
    rcases List.mem_cons.mp hmem with hhead | htail
    · obtain ⟨o', tag', lit'⟩ := t
      obtain ⟨h1, h2, h3⟩ := Prod.mk.inj_iff.mp (congrArg id hhead.symm) |>.imp id
        (fun h => Prod.mk.inj_iff.mp h)
      subst h1
      simp only [snmpc_trap_sent, snmpc_trap_build]
      rw [show tag' = tag from h2.symm ▸ rfl, show lit' = lit from h3.symm ▸ rfl] at *
      rw [hfail]
    · have hs := ih htail
      obtain ⟨o', tag', lit'⟩ := t
      simp only [snmpc_trap_sent, snmpc_trap_build]
      cases hv : snmpc_trap_value tag' lit' with
      | error e' => rfl
      | ok v =>
        simp only [snmpc_trap_sent] at hs
        cases hb : snmpc_trap_build ts with
        | error e' => rfl
        | ok vs => rw [hb] at hs; simp at hs

/-- C7 (witness): a single triple whose `x` literal `"zz"` fails keeps
the trap from being sent. -/
theorem c7_trap_atomic_witness :
    ((([1, 3], 'x', ("zz").toList) : List Nat × Char × List Char)
      ∈ [(([1, 3] : List Nat), 'x', ("zz").toList),
          (([1, 4] : List Nat), 'i', ("5").toList)])
    ∧ snmpc_trap_value 'x' (("zz").toList) = .error .badValue
    ∧ snmpc_trap_sent [(([1, 3] : List Nat), 'x', ("zz").toList),
        (([1, 4] : List Nat), 'i', ("5").toList)] = false :=
  ⟨by decide, by decide,
    c7_trap_atomic [(([1, 3] : List Nat), 'x', ("zz").toList),
        (([1, 4] : List Nat), 'i', ("5").toList)]
      [1, 3] 'x' (("zz").toList) .badValue (by decide) (by decide)⟩

/-! ## Claim C5: error-index selection in `snmpc_get` -/

/-- A valid index into a list is reported through `getD`. -/
theorem get?_eq_some_getD (l : List String) (j : Nat) (h : j < l.length) :
    l.get? j = some (l.getD j ("")) := by
  induction l generalizing j with
  | nil => simp at h
  | cons a l ih =>
    cases j with
    | zero => simp [List.getD]
    | succ j =>
      simp only [List.length_cons] at h
      simpa [List.getD] using ih j (by omega)

/-- C5 (counterexample): an error-index of 0 is not reported
generically — `argv[errorindex - 1]` at line 346 resolves to
`argv[-1]`, the agent argument, so the message names the agent string,
refuting the spec's generic-report rule. -/
theorem c5_error_report_counterexample :
    snmpc_get_report ("agentA") (["oidOne", "oidTwo"]) 0 = .named ("agentA")
    ∧ snmpc_get_report ("agentA") (["oidOne", "oidTwo"]) 0
      ≠ reportPerSpec (["oidOne", "oidTwo"]) 0 := by
  decide

/-- C5 (amended): a non-zero in-range error-index selects, 1-based,
the requested OID for the error message (so error-status 2 with
error-index 1 on a two-OID request names the first requested OID); an
error-index of 0 makes the message name the agent argument
(`argv[-1]`), and an index greater than the request's OID count reads
past the request list (`argv`'s NULL terminator or beyond) — neither
is reported generically. -/
theorem c5_error_report (agent : String) (oids : List String) (i : Nat) :
    (1 ≤ i → i ≤ oids.length → snmpc_get_report agent oids i
      = .named (oids.getD (i - 1) ("")))
    ∧ snmpc_get_report agent oids 0 = .named agent
    ∧ (oids.length < i → snmpc_get_report agent oids i = .outOfBounds) := by
  refine ⟨?_, ?_, ?_⟩
  · intro h1 h2
    obtain ⟨j, rfl⟩ : ∃ j, i = j + 1 := ⟨i - 1, by omega⟩
    have hj : j < oids.length := by omega
    simp only [snmpc_get_report, List.get?_cons_succ, get?_eq_some_getD oids j hj]
    simp
  · simp [snmpc_get_report]
  · intro h
    have hnone : (agent :: oids).get? i = none := by
      rw [List.get?_eq_none]
      simp only [List.length_cons]
      omega
    simp only [snmpc_get_report]
    rw [hnone]

/-- C5 (witness): error-status 2 with error-index 1 against a two-OID
request names the first requested OID. -/
theorem c5_error_report_witness :
    ((1 : Nat) ≤ 1 ∧ 1 ≤ (["oidOne", "oidTwo"] : List String).length)
    ∧ snmpc_get_report ("agentA") (["oidOne", "oidTwo"]) 1
      = .named ((["oidOne", "oidTwo"] : List String).getD 0 ("")) :=
  ⟨by decide,
    (c5_error_report ("agentA") (["oidOne", "oidTwo"]) 1).1 (by decide) (by decide)⟩

/-! ## Claim C8: numeric range checks of the trap codec -/

/-- C8: the tag `c` codec accepts a literal exactly when it is a
signed decimal in the 32-bit signed range (`strtonum(..., INT32_MIN,
INT32_MAX)`, lines 568-570), producing a Counter32 carrying that
quantity; the tag `u` and `i` codecs accept a literal exactly when it
is a signed decimal in the 64-bit signed range (`strtonum(...,
LLONG_MIN, LLONG_MAX)`, line 604), producing an Integer; anything else
fails with the bad-value-notation error. -/
theorem c8_numeric_ranges (lit : List Char) :
    (parseSignedDec lit = none →
      snmpc_trap_value 'c' lit = .error .badValue
      ∧ snmpc_trap_value 'u' lit = .error .badValue
      ∧ snmpc_trap_value 'i' lit = .error .badValue)
    ∧ (∀ v : Int, parseSignedDec lit = some v →
      (snmpc_trap_value 'c' lit
        = if -2147483648 ≤ v ∧ v ≤ 2147483647 then .ok (.counter32 v)
          else .error .badValue)
      ∧ (snmpc_trap_value 'u' lit
        = if -9223372036854775808 ≤ v ∧ v ≤ 9223372036854775807 then .ok (.integer v)
          else .error .badValue)
      ∧ (snmpc_trap_value 'i' lit
        = if -9223372036854775808 ≤ v ∧ v ≤ 9223372036854775807 then .ok (.integer v)
          else .error .badValue)) := by
  constructor
  · intro hnone
    refine ⟨?_, ?_, ?_⟩ <;> simp [snmpc_trap_value, strtonum, hnone]
  · intro v hsome
    refine ⟨?_, ?_, ?_⟩
    · simp only [snmpc_trap_value, strtonum, hsome]
      by_cases h : v < -2147483648 ∨ 2147483647 < v
      · rw [if_pos h, if_neg (by omega)]
      · rw [if_neg h, if_pos (by omega)]
    · simp only [snmpc_trap_value, strtonum, hsome]
      by_cases h : v < -9223372036854775808 ∨ 9223372036854775807 < v
      · rw [if_pos h, if_neg (by omega)]
      · rw [if_neg h, if_pos (by omega)]
    · simp only [snmpc_trap_value, strtonum, hsome]
      by_cases h : v < -9223372036854775808 ∨ 9223372036854775807 < v
      · rw [if_pos h, if_neg (by omega)]
      · rw [if_neg h, if_pos (by omega)]

/-- C8 (witness): `2147483648` (one past INT32_MAX) is rejected by the
tag `c` codec but accepted by the tag `u` codec as an Integer. -/
theorem c8_numeric_ranges_witness :
    parseSignedDec (("2147483648").toList) = some 2147483648
    ∧ snmpc_trap_value 'c' (("2147483648").toList) = .error .badValue
    ∧ snmpc_trap_value 'u' (("2147483648").toList) = .ok (.integer 2147483648) := by
  have h := (c8_numeric_ranges (("2147483648").toList)).2 2147483648 (by decide)
  refine ⟨by decide, ?_, ?_⟩
  · rw [h.1, if_neg (by norm_num)]
  · rw [h.2.1, if_pos (by norm_num)]

/-! ## Claim C10: a `b` literal with no tokens -/

/-- Stripping blanks from a separator-only string leaves nothing or a
comma-headed remainder. -/
theorem sep_dropWhile_shape (s : List Char) (h : ∀ c ∈ s, sepB c = true) :
    s.dropWhile wsB = [] ∨ ∃ u, s.dropWhile wsB = ',' :: u := by
  induction s with
  | nil => left; rfl
  | cons c s ih =>
    have hc := h c (List.mem_cons_self c s)
    by_cases hw : wsB c = true
    · rw [List.dropWhile_cons_of_pos hw]
      exact ih (fun d hd => h d (List.mem_cons_of_mem c hd))
    · rw [List.dropWhile_cons_of_neg hw]
      right
      have hcc : c = ',' := by
        simp only [sepB, wsB, Bool.or_eq_true, beq_iff_eq] at hc hw
        push_neg at hw
        tauto
      exact ⟨s, by rw [hcc]⟩

/-- A comma is a digit in no base used here. -/
theorem isDigitB_comma (base : Nat) : isDigitB base ',' = false := by
  simp only [isDigitB]
  split_ifs <;> decide

/-- `strtoll` reports no conversion when the stripped input is empty
or comma-headed. -/
theorem strtollCore_noconv (base : Nat) (s t : List Char)
    (ht : t = [] ∨ ∃ u, t = ',' :: u) : strtollCore base s t = (0, s, false) := by
  rcases ht with rfl | ⟨u, rfl⟩
  · rfl
  · simp only [strtollCore, List.head?_cons, List.tail_cons]
    rw [if_neg (by decide), if_neg (by decide)]
    simp [takeDigits, isDigitB_comma]

/-- On a separator-only string `strtoll` consumes nothing. -/
theorem strtoll_sep (s : List Char) (h : ∀ c ∈ s, sepB c = true) :
    strtoll 10 s = (0, s, false) :=
  strtollCore_noconv 10 s _ (sep_dropWhile_shape s h)

/-- The `b` loop on a separator-only string skips every character and
returns the accumulator unchanged. -/
theorem bGo_sep (fuel : Nat) : ∀ (s : List Char) (str : List Nat),
    (∀ c ∈ s, sepB c = true) → s.length < fuel → bGo fuel s str = .ok str := by
  induction fuel with
  | zero => intro s str _ hl; omega
  | succ f ih =>
    intro s str h hl
    cases s with
    | nil =>
      have hst := strtoll_sep [] (by intro c hc; cases hc)
      simp [bGo, hst, headOk]
    | cons c s' =>
      have hst := strtoll_sep (c :: s') h
      have hc := h c (List.mem_cons_self c s')
      have hrec := ih s' str (fun d hd => h d (List.mem_cons_of_mem c hd))
        (by simp only [List.length_cons] at hl; omega)
      simp [bGo, hst, headOk, hc, hrec]

/-- C10: a tag `b` literal with no numeric tokens at all — empty, or
separator characters only — is accepted, and the resulting varbind
value is a zero-length OctetString: the loop of lines 540-562 only
skips characters (`tmpstr == endstr`), `strl` stays 0, and line 632
builds the OctetString from the empty buffer. -/
theorem c10_bits_no_tokens (s : List Char) (hsep : ∀ c ∈ s, sepB c = true) :
    snmpc_trap_value 'b' s = .ok (.octetString []) := by
  have h := bGo_sep (s.length + 1) s [] hsep (by omega)
  simp only [snmpc_trap_value, bLoop, h]

/-- C10 (witness): both the empty literal and a separator-only literal
under tag `b` produce the empty OctetString. -/
theorem c10_bits_no_tokens_witness :
    ((",, \t,").toList.all sepB = true)
    ∧ snmpc_trap_value 'b' ((",, \t,").toList) = .ok (.octetString [])
    ∧ snmpc_trap_value 'b' (("").toList) = .ok (.octetString []) :=
  ⟨by decide, c10_bits_no_tokens _ (by decide), c10_bits_no_tokens _ (by decide)⟩

/-! ## Claim C4: the BITS (`b`) encoding -/

/-- Zero padding appended by `recallocarray` never changes a read
byte: absent positions already read as zero. -/
theorem getD_append_replicate_zero (bs : List Nat) (m j : Nat) :
    (bs ++ List.replicate m 0).getD j 0 = bs.getD j 0 := by
  simp only [List.getD_eq_getElem?_getD, List.getElem?_append, List.getElem?_replicate]
  by_cases h : j < bs.length
  · rw [if_pos h]
  · rw [if_neg h, List.getElem?_eq_none (by omega)]
    split_ifs <;> rfl

/-- Reading after an in-bounds write. -/
theorem getD_set_lt (l : List Nat) (i j x : Nat) (h : i < l.length) :
    (l.set i x).getD j 0 = if i = j then x else l.getD j 0 := by
  simp only [List.getD_eq_getElem?_getD, List.getElem?_set]
  by_cases hij : i = j
  · subst hij
    simp [h]
  · simp [hij]

/-- Setting bit `v` grows the buffer to exactly cover byte `v / 8`. -/
theorem length_setBit (bs : List Nat) (v : Nat) :
    (setBit bs v).length = max bs.length (v / 8 + 1) := by
  simp only [setBit]
  by_cases h : bs.length ≤ v / 8
  · rw [if_pos h]
    simp only [List.length_set, List.length_append, List.length_replicate]
    omega
  · rw [if_neg h]
    simp only [List.length_set]
    omega

/-- Setting bit `v` ORs the mask into byte `v / 8` and leaves every
other byte unchanged. -/
theorem getD_setBit (bs : List Nat) (v j : Nat) :
    (setBit bs v).getD j 0
      = if v / 8 = j then bs.getD (v / 8) 0 ||| 128 >>> (v % 8) else bs.getD j 0 := by
  simp only [setBit]
  by_cases h : bs.length ≤ v / 8
  · rw [if_pos h]
    rw [getD_set_lt _ _ _ _ (by
      simp only [List.length_append, List.length_replicate]; omega)]
    rw [getD_append_replicate_zero]
    by_cases hij : v / 8 = j
    · rw [if_pos hij, if_pos hij]
    · rw [if_neg hij, if_neg hij, getD_append_replicate_zero]
  · rw [if_neg h]
    rw [getD_set_lt _ _ _ _ (by omega)]

/-- The C mask `0x80 >> k` is the single bit at MSB-relative
position `k`. -/
theorem shift128 (k : Nat) (h : k < 8) : 128 >>> k = 2 ^ (7 - k) := by
  interval_cases k <;> rfl

/-- Setting bit `v` sets exactly bit `v` in the MSB-first reading. -/
theorem hasBit_setBit (bs : List Nat) (v i : Nat) :
    hasBit (setBit bs v) i = (hasBit bs i || decide (i = v)) := by
  simp only [hasBit, getD_setBit]
  by_cases hb : v / 8 = i / 8
  · rw [if_pos hb]
    rw [shift128 (v % 8) (Nat.mod_lt _ (by norm_num))]
    rw [Nat.testBit_lor, Nat.testBit_two_pow]
    rw [← hb]
    congr 1
    have h1 : v % 8 < 8 := Nat.mod_lt _ (by norm_num)
    have h2 : i % 8 < 8 := Nat.mod_lt _ (by norm_num)
    by_cases he : i = v
    · subst he; simp
    · have hne : ¬(7 - v % 8 = 7 - i % 8) := by
        intro hmod
        apply he
        have hdm1 := Nat.div_add_mod i 8
        have hdm2 := Nat.div_add_mod v 8
        omega
      simp [hne, he]
  · rw [if_neg hb]
    have hne : ¬(i = v) := fun he => hb (by rw [he])
    simp [hne]

/-- Folding `setBit` over a token list sets exactly the listed bits. -/
theorem hasBit_foldl (ixs : List Nat) : ∀ (bs : List Nat) (i : Nat),
    hasBit (ixs.foldl setBit bs) i = (hasBit bs i || decide (i ∈ ixs)) := by
  induction ixs with
  | nil => intro bs i; simp
  | cons v vs ih =>
    intro bs i
    simp only [List.foldl_cons, ih, hasBit_setBit, List.mem_cons]
    by_cases h1 : i = v <;> by_cases h2 : i ∈ vs <;> simp [h1, h2]

/-- The buffer length after folding `setBit` is the running maximum of
`v / 8 + 1` over the tokens. -/
theorem length_foldl_setBit (ixs : List Nat) : ∀ (bs : List Nat),
    (ixs.foldl setBit bs).length
      = ixs.foldl (fun m v => max m (v / 8 + 1)) bs.length := by
  induction ixs with
  | nil => intro bs; rfl
  | cons v vs ih =>
    intro bs
    simp only [List.foldl_cons, ih, length_setBit]

/-- The running maximum of `v / 8 + 1` is the maximum token divided by
8 plus one. -/
theorem foldl_maxdiv (ixs : List Nat) : ∀ (a : Nat),
    ixs.foldl (fun m v => max m (v / 8 + 1)) (a / 8 + 1) = (ixs.foldl max a) / 8 + 1 := by
  induction ixs with
  | nil => intro a; rfl
  | cons v vs ih =>
    intro a
    simp only [List.foldl_cons]
    have hmax : max (a / 8 + 1) (v / 8 + 1) = max a v / 8 + 1 := by
      rcases Nat.le_total a v with h | h
      · have hd : a / 8 ≤ v / 8 := Nat.div_le_div_right h
        rw [Nat.max_eq_right h, Nat.max_eq_right (by omega)]
      · have hd : v / 8 ≤ a / 8 := Nat.div_le_div_right h
        rw [Nat.max_eq_left h, Nat.max_eq_left (by omega)]
    rw [hmax, ih]

/-- C4: for every nonempty list of non-negative bit-index tokens under
tag `b` (lines 537-562), the accumulated OctetString is a big-endian
bit string whose byte length is the highest index divided by 8 plus
one, with exactly the listed bits set — bit `i` at position `i` from
the most significant bit of byte `i / 8`; in particular the literal
`"0 7 15"` yields the 2-byte OctetString `0x81 0x01`, and the codec's
token loop agrees with the `setBit` fold on it. -/
theorem c4_bits_encoding (ixs : List Nat) (hne : ixs ≠ []) :
    (ixs.foldl setBit []).length = (ixs.foldl max 0) / 8 + 1
    ∧ (∀ i : Nat, hasBit (ixs.foldl setBit []) i = decide (i ∈ ixs))
    ∧ snmpc_trap_value 'b' (("0 7 15").toList) = .ok (.octetString [129, 1])
    ∧ bLoop (("0 7 15").toList) = .ok (([0, 7, 15] : List Nat).foldl setBit []) := by
  refine ⟨?_, ?_, by decide, by decide⟩
  · obtain ⟨x, xs, rfl⟩ : ∃ x xs, ixs = x :: xs := by
      cases ixs with
      | nil => exact absurd rfl hne
      | cons x xs => exact ⟨x, xs, rfl⟩
    rw [length_foldl_setBit]
    simp only [List.foldl_cons, List.length_nil]
    rw [Nat.zero_max, Nat.zero_max, foldl_maxdiv]
  · intro i
    rw [hasBit_foldl]
    simp [hasBit]

/-- C4 (witness): the indices 0, 7 and 15 give a 2-byte string, bit 7
is set, bit 8 is not, and the codec returns `0x81 0x01`. -/
theorem c4_bits_encoding_witness :
    (([0, 7, 15] : List Nat) ≠ [])
    ∧ (([0, 7, 15] : List Nat).foldl setBit []).length
      = (([0, 7, 15] : List Nat).foldl max 0) / 8 + 1
    ∧ hasBit (([0, 7, 15] : List Nat).foldl setBit []) 7
      = decide (7 ∈ ([0, 7, 15] : List Nat))
    ∧ hasBit (([0, 7, 15] : List Nat).foldl setBit []) 8
      = decide (8 ∈ ([0, 7, 15] : List Nat))
    ∧ snmpc_trap_value 'b' (("0 7 15").toList) = .ok (.octetString [129, 1]) := by
  have h := c4_bits_encoding [0, 7, 15] (by decide)
  exact ⟨by decide, h.1, h.2.1 7, h.2.1 8, h.2.2.1⟩
